import Mathlib

/-!
Verification development for the EpyNN neural-network engine.

The definitions below are shallow embeddings of the Python sources:
`nnlibs/gru/parameters.py` (GRU shape/forward/backward initialisation and
per-timestep gradient accumulation) and `nnlibs/commons/maths.py`
(activations, initializers, gradient clipping).  Numeric arrays are
modelled as lists of rows; the GRU bookkeeping is over ℚ so that concrete
runs are decidable, while the transcendental activations and the clipper
are over ℝ.
-/

namespace EpyNN

/-- A 2-D numeric array, as a list of rows over ℚ. -/
abbrev Mat := List (List ℚ)

/-- A 3-D numeric array, as a list of 2-D planes along axis 0. -/
abbrev Tensor3 := List Mat

/-- Elementwise combination of two same-shaped matrices. -/
def zipWith2D (f : ℚ → ℚ → ℚ) (A B : Mat) : Mat :=
  List.zipWith (fun r s => List.zipWith f r s) A B

/-- Elementwise map over a matrix. -/
def map2D (f : ℚ → ℚ) (A : Mat) : Mat :=
  A.map (List.map f)

/-- Elementwise matrix addition (numpy `+`). -/
def matAdd (A B : Mat) : Mat := zipWith2D (· + ·) A B

/-- Elementwise matrix product (numpy `np.multiply`). -/
def hadamard (A B : Mat) : Mat := zipWith2D (· * ·) A B

/-- Scalar times matrix. -/
def smul (c : ℚ) (A : Mat) : Mat := map2D (fun v => c * v) A

/-- Dot product of two rows. -/
def dotQ (r s : List ℚ) : ℚ := (List.zipWith (· * ·) r s).sum

/-- Column `j` of a matrix. -/
def column (A : Mat) (j : ℕ) : List ℚ :=
  A.map (fun row => row.getD j 0)

/-- Matrix transpose (numpy `.T`) for rectangular matrices. -/
def transposeM (A : Mat) : Mat :=
  (List.range (A.headD []).length).map (column A)

/-- Matrix product (numpy `np.dot` on 2-D arrays). -/
def matMul (A B : Mat) : Mat :=
  A.map (fun row => (transposeM B).map (fun col => dotQ row col))

/-- Row sums kept as a column vector (numpy `np.sum(_, axis=1, keepdims=True)`). -/
def sumRows (A : Mat) : Mat :=
  A.map (fun row => [row.sum])

/-- The all-zero matrix of a given shape (numpy `np.zeros`). -/
def zeros (r c : ℕ) : Mat :=
  List.replicate r (List.replicate c (0 : ℚ))

/-- Zero matrix with the shape of a given matrix (numpy `np.zeros_like`). -/
def zerosLike (A : Mat) : Mat := map2D (fun _ => 0) A

/-- Elementwise `1 - x` (the `(1 - z)` gate factor). -/
def oneMinus (A : Mat) : Mat := map2D (fun v => 1 - v) A

/-- `A` is an `r × c` matrix. -/
def isMatrix (r c : ℕ) (A : Mat) : Prop :=
  A.length = r ∧ ∀ row ∈ A, row.length = c

instance (r c : ℕ) (A : Mat) : Decidable (isMatrix r c A) := by
  unfold isMatrix; infer_instance

/-- Python sequence indexing: a negative index counts from the end. -/
def pyIdx (l : List Mat) (i : ℤ) : Mat :=
  if i < 0 then l.getD (l.length - (-i).toNat) []
  else l.getD i.toNat []

/-- The numpy `shape` of a 3-D tensor (outer length and head lengths). -/
def shape3 (X : Tensor3) : ℕ × ℕ × ℕ :=
  (X.length, (X.headD []).length, ((X.headD []).headD []).length)

/-- The slice `X[:, t]` of a 3-D tensor: a 2-D matrix. -/
def sliceT (X : Tensor3) (t : ℕ) : Mat :=
  X.map (fun plane => plane.getD t [])

/-- Dimensions and parameter shapes set by `gru/parameters.py: init_shapes`. -/
structure GRUShapes where
  d_h : ℕ
  d_v : ℕ
  d_o : ℕ
  Wz : ℕ × ℕ
  Uz : ℕ × ℕ
  bz : ℕ × ℕ
  Wr : ℕ × ℕ
  Ur : ℕ × ℕ
  br : ℕ × ℕ
  Wh : ℕ × ℕ
  Uh : ℕ × ℕ
  bh : ℕ × ℕ
  Wy : ℕ × ℕ
  b_y : ℕ × ℕ

/-- Embedding of `gru/parameters.py: init_shapes` (the `by` shape is named
`b_y` because `by` is reserved in Lean). -/
def init_shapes (binary : Bool) (hidden_size vocab_size : ℕ) : GRUShapes :=
  let output_size := if binary = false then vocab_size else 2
  { d_h := hidden_size
    d_v := vocab_size
    d_o := output_size
    Wz := (hidden_size, vocab_size)
    Uz := (hidden_size, hidden_size)
    bz := (hidden_size, 1)
    Wr := (hidden_size, vocab_size)
    Ur := (hidden_size, hidden_size)
    br := (hidden_size, 1)
    Wh := (hidden_size, vocab_size)
    Uh := (hidden_size, hidden_size)
    bh := (hidden_size, 1)
    Wy := (output_size, hidden_size)
    b_y := (output_size, 1) }

/-- The state produced by `gru/parameters.py: init_forward`: the cached input,
the timestep count `ts`, the five per-timestep cache sequences (created as
`[0] * ts` placeholder lists), and the initial hidden state. -/
structure ForwardInit where
  X : Tensor3
  ts : ℕ
  zC : List ℚ
  rC : List ℚ
  hC : List ℚ
  hpC : List ℚ
  AC : List ℚ
  h : Mat

/-- Embedding of `gru/parameters.py: init_forward`: caches `X`, sets
`ts = X.shape[1]`, creates the `z, r, h, hp, A` caches as `[0] * ts`, and
sets `h = np.zeros((d_h, X.shape[-1]))`. -/
def init_forward (d_h : ℕ) (A : Tensor3) : ForwardInit :=
  let X := A
  let ts := (shape3 X).2.1
  { X := X
    ts := ts
    zC := List.replicate ts 0
    rC := List.replicate ts 0
    hC := List.replicate ts 0
    hpC := List.replicate ts 0
    AC := List.replicate ts 0
    h := zeros d_h (shape3 X).2.2 }

/-- The state produced by `gru/parameters.py: init_backward`. -/
structure BackwardInit where
  dX : Mat
  dhn : Mat
  dXt : Mat
  dh : Mat

/-- Embedding of `gru/parameters.py: init_backward`: `dX = dA`,
`dhn = np.zeros_like(fc['h'][0])`, `dXt = dX`, then
`dh = derivative_input((Wy.T · dXt + dhn) ⊙ (1 - z[-1]), h[-1])`. -/
def init_backward (p_Wy : Mat) (hSeq zSeq : List Mat)
    (derivative_input : Mat → Mat → Mat) (dA : Mat) : BackwardInit :=
  let dX := dA
  let dhn := zerosLike (hSeq.getD 0 [])
  let dXt := dX
  let dh0 := matAdd (matMul (transposeM p_Wy) dXt) dhn
  let dh1 := hadamard dh0 (oneMinus (pyIdx zSeq (-1)))
  { dX := dX
    dhn := dhn
    dXt := dXt
    dh := derivative_input dh1 (pyIdx hSeq (-1)) }

/-- The gradient dictionary of the GRU layer (`layer.g`). -/
structure GRUGrads where
  dWy : Mat
  dby : Mat
  dWh : Mat
  dUh : Mat
  dbh : Mat
  dWr : Mat
  dUr : Mat
  dbr : Mat
  dWz : Mat
  dUz : Mat
  dbz : Mat

/-- Embedding of `gru/parameters.py: update_gradients` at timestep `t`:
`m = X.shape[-1]`, `h = fc['h'][t]`, `hp = fc['h'][t-1]` (Python indexing,
so `t = 0` reads `fc['h'][-1]`), `Xt = X[:, t]`, and each gradient gets
`1/m` times its timestep contribution added in place. -/
def update_gradients (g : GRUGrads) (X : Tensor3) (hSeq rSeq : List Mat)
    (dXt dh dr dz : Mat) (t : ℕ) : GRUGrads :=
  let m : ℚ := ((shape3 X).2.2 : ℚ)
  let h := pyIdx hSeq (t : ℤ)
  let hp := pyIdx hSeq ((t : ℤ) - 1)
  let Xt := sliceT X t
  { dWy := matAdd g.dWy (smul (1 / m) (matMul dXt (transposeM h)))
    dby := matAdd g.dby (smul (1 / m) (sumRows dXt))
    dWh := matAdd g.dWh (smul (1 / m) (matMul dh (transposeM Xt)))
    dUh := matAdd g.dUh (smul (1 / m) (matMul dh (transposeM (hadamard (pyIdx rSeq (t : ℤ)) hp))))
    dbh := matAdd g.dbh (smul (1 / m) (sumRows dh))
    dWr := matAdd g.dWr (smul (1 / m) (matMul dr (transposeM Xt)))
    dUr := matAdd g.dUr (smul (1 / m) (matMul dr (transposeM hp)))
    dbr := matAdd g.dbr (smul (1 / m) (sumRows dr))
    dWz := matAdd g.dWz (smul (1 / m) (matMul dz (transposeM Xt)))
    dUz := matAdd g.dUz (smul (1 / m) (matMul dz (transposeM hp)))
    dbz := matAdd g.dbz (smul (1 / m) (sumRows dz)) }

/-- All-zero gradient dictionary for 1 × 1 gradients, used in concrete runs. -/
def g0 : GRUGrads :=
  ⟨[[0]], [[0]], [[0]], [[0]], [[0]], [[0]], [[0]], [[0]], [[0]], [[0]], [[0]]⟩

/-- A 3-D tensor of shape (2, 3, 4), all zeros. -/
def X234 : Tensor3 :=
  List.replicate 2 (List.replicate 3 (List.replicate 4 (0 : ℚ)))

lemma pyIdx_natCast (l : List Mat) (t : ℕ) : pyIdx l (t : ℤ) = l.getD t [] := by
  simp [pyIdx]

lemma pyIdx_natCast_sub_one (l : List Mat) (t : ℕ) (ht : 1 ≤ t) :
    pyIdx l ((t : ℤ) - 1) = l.getD (t - 1) [] := by
  have hnn : ¬ ((t : ℤ) - 1 < 0) := by omega
  have htn : ((t : ℤ) - 1).toNat = t - 1 := by omega
  simp [pyIdx, hnn, htn]

lemma zerosLike_eq_zeros (A : Mat) (r c : ℕ) (h : isMatrix r c A) :
    zerosLike A = zeros r c := by
  obtain ⟨hr, hc⟩ := h
  subst hr
  induction A with
  | nil => simp [zerosLike, zeros, map2D]
  | cons row rest ih =>
      have hrow : row.length = c := hc row (List.mem_cons_self _ _)
      have hrest : ∀ q ∈ rest, q.length = c := fun q hq => hc q (List.mem_cons_of_mem _ hq)
      simp only [zerosLike, map2D, List.map_cons, zeros, List.length_cons,
        List.replicate_succ]
      refine List.cons_eq_cons.mpr ⟨?_, ?_⟩
      · rw [List.map_const', hrow]
      · simpa [zerosLike, map2D, zeros] using ih hrest

/-- Claim C10: `init_shapes` sets the output dimension to 2 exactly when the
binary flag is true and to the vocabulary size otherwise, and derives every
gate parameter shape from the (hidden, vocabulary, output) dimensions:
Wz/Wr/Wh are hidden × vocab, Uz/Ur/Uh are hidden × hidden, bz/br/bh are
hidden × 1, Wy is output × hidden and by is output × 1. -/
theorem C10_init_shapes_dimensions (hidden vocab : ℕ) (binary : Bool) :
    (init_shapes true hidden vocab).d_o = 2 ∧
    (init_shapes false hidden vocab).d_o = vocab ∧
    (init_shapes binary hidden vocab).Wz = (hidden, vocab) ∧
    (init_shapes binary hidden vocab).Wr = (hidden, vocab) ∧
    (init_shapes binary hidden vocab).Wh = (hidden, vocab) ∧
    (init_shapes binary hidden vocab).Uz = (hidden, hidden) ∧
    (init_shapes binary hidden vocab).Ur = (hidden, hidden) ∧
    (init_shapes binary hidden vocab).Uh = (hidden, hidden) ∧
    (init_shapes binary hidden vocab).bz = (hidden, 1) ∧
    (init_shapes binary hidden vocab).br = (hidden, 1) ∧
    (init_shapes binary hidden vocab).bh = (hidden, 1) ∧
    (init_shapes binary hidden vocab).Wy = ((init_shapes binary hidden vocab).d_o, hidden) ∧
    (init_shapes binary hidden vocab).b_y = ((init_shapes binary hidden vocab).d_o, 1) := by
  refine ⟨rfl, rfl, rfl, rfl, rfl, rfl, rfl, rfl, rfl, rfl, rfl, rfl, rfl⟩

/-- Claim C2, counterexample: for an input of shape (2, 3, 4) — which under
the claimed axis order (features, batch, time) has batch 3 and time 4 —
`init_forward` sets the timestep count to 3 (the middle axis, not the time
axis) and gives the initial hidden state 4 columns (the last axis, not the
batch axis), refuting the claimed axis convention. -/
theorem C2_axis_order_counterexample :
    (init_forward 1 X234).ts = 3 ∧ (init_forward 1 X234).h = zeros 1 4 ∧
    ¬ ((init_forward 1 X234).ts = 4 ∧ (init_forward 1 X234).h = zeros 1 3) := by
  refine ⟨rfl, rfl, fun hcl => absurd hcl.1 (by decide)⟩

/-- Claim C2 (amended): `init_forward` caches `X`, derives the timestep count
as `X.shape[1]` (the middle axis — the code's axis order is (features, time,
batch)), creates the five cache sequences `z, r, h, hp, A` each with exactly
that many entries, and creates the initial hidden state as the zero tensor of
shape hiddenSize × `X.shape[2]` (the last axis, the batch axis). -/
theorem C2_init_forward_spec (d_h : ℕ) (X : Tensor3) :
    (init_forward d_h X).X = X ∧
    (init_forward d_h X).ts = (shape3 X).2.1 ∧
    (init_forward d_h X).zC.length = (init_forward d_h X).ts ∧
    (init_forward d_h X).rC.length = (init_forward d_h X).ts ∧
    (init_forward d_h X).hC.length = (init_forward d_h X).ts ∧
    (init_forward d_h X).hpC.length = (init_forward d_h X).ts ∧
    (init_forward d_h X).AC.length = (init_forward d_h X).ts ∧
    (init_forward d_h X).h = zeros d_h (shape3 X).2.2 ∧
    isMatrix d_h (shape3 X).2.2 (init_forward d_h X).h ∧
    ∀ row ∈ (init_forward d_h X).h, ∀ v ∈ row, v = 0 := by
  refine ⟨rfl, rfl, ?_, ?_, ?_, ?_, ?_, rfl, ?_, ?_⟩
  · simp [init_forward]
  · simp [init_forward]
  · simp [init_forward]
  · simp [init_forward]
  · simp [init_forward]
  · simp [init_forward, isMatrix, zeros, List.mem_replicate]
  · intro row hrow v hv
    simp [init_forward, zeros, List.mem_replicate] at hrow
    rcases hrow with ⟨-, rfl⟩
    exact (List.eq_of_mem_replicate hv)

/-- Claim C1 (code-bug evidence): at timestep 0 the gradient accumulation
reads `fc['h'][t-1] = fc['h'][-1]`, the hidden state of the LAST timestep,
not the zero initial hidden state.  With the hidden-state cache
`[h_0, h_1] = [[[5]], [[7]]]`, `r_0 = [[1]]` and `dh = dr = dz = [[1]]`, the
increments added into dUh, dUr and dUz all use `[[7]] = h_{T-1}`, whereas the
zero initial hidden state would make the dUh increment the zero matrix. -/
theorem C1_t0_uses_last_hidden_state :
    (update_gradients g0 [[[1], [1]]] [[[5]], [[7]]] [[[1]], [[1]]]
        [[0]] [[1]] [[1]] [[1]] 0).dUh = [[7]] ∧
    (update_gradients g0 [[[1], [1]]] [[[5]], [[7]]] [[[1]], [[1]]]
        [[0]] [[1]] [[1]] [[1]] 0).dUr = [[7]] ∧
    (update_gradients g0 [[[1], [1]]] [[[5]], [[7]]] [[[1]], [[1]]]
        [[0]] [[1]] [[1]] [[1]] 0).dUz = [[7]] ∧
    matAdd g0.dUh (smul 1 (matMul [[1]] (transposeM (hadamard [[1]] (zeros 1 1))))) = [[0]] ∧
    ([[(7 : ℚ)]] : Mat) ≠ [[0]] := by
  refine ⟨?_, ?_, ?_, ?_, by norm_num⟩ <;>
    norm_num [update_gradients, g0, pyIdx, shape3, sliceT, matAdd, smul, map2D,
      zipWith2D, hadamard, matMul, transposeM, column, dotQ, sumRows, zeros,
      X234, List.replicate, List.range_succ, List.range_zero,
      List.head?, List.headD, Option.map, Option.getD, List.getD]

/-- Claim C4: for timesteps t ≥ 1 each gradient-accumulation call adds —
never overwrites — 1/m times the timestep contribution into every gradient
tensor, with m the batch size `X.shape[-1]`: dWh gains 1/m · dh · Xtᵀ, dUh
gains 1/m · dh · (r_t ⊙ h_(t-1))ᵀ, dbh gains 1/m times the batch-axis sum of
dh, and correspondingly for the y, r and z parameter gradients. -/
theorem C4_update_gradients_accumulates (g : GRUGrads) (X : Tensor3)
    (hSeq rSeq : List Mat) (dXt dh dr dz : Mat) (t : ℕ) (ht : 1 ≤ t) :
    update_gradients g X hSeq rSeq dXt dh dr dz t =
      { dWy := matAdd g.dWy (smul (1 / ((shape3 X).2.2 : ℚ)) (matMul dXt (transposeM (hSeq.getD t []))))
        dby := matAdd g.dby (smul (1 / ((shape3 X).2.2 : ℚ)) (sumRows dXt))
        dWh := matAdd g.dWh (smul (1 / ((shape3 X).2.2 : ℚ)) (matMul dh (transposeM (sliceT X t))))
        dUh := matAdd g.dUh (smul (1 / ((shape3 X).2.2 : ℚ)) (matMul dh (transposeM (hadamard (rSeq.getD t []) (hSeq.getD (t - 1) [])))))
        dbh := matAdd g.dbh (smul (1 / ((shape3 X).2.2 : ℚ)) (sumRows dh))
        dWr := matAdd g.dWr (smul (1 / ((shape3 X).2.2 : ℚ)) (matMul dr (transposeM (sliceT X t))))
        dUr := matAdd g.dUr (smul (1 / ((shape3 X).2.2 : ℚ)) (matMul dr (transposeM (hSeq.getD (t - 1) []))))
        dbr := matAdd g.dbr (smul (1 / ((shape3 X).2.2 : ℚ)) (sumRows dr))
        dWz := matAdd g.dWz (smul (1 / ((shape3 X).2.2 : ℚ)) (matMul dz (transposeM (sliceT X t))))
        dUz := matAdd g.dUz (smul (1 / ((shape3 X).2.2 : ℚ)) (matMul dz (transposeM (hSeq.getD (t - 1) []))))
        dbz := matAdd g.dbz (smul (1 / ((shape3 X).2.2 : ℚ)) (sumRows dz)) } := by
  simp only [update_gradients, pyIdx_natCast, pyIdx_natCast_sub_one _ _ ht]

/-- Witness for claim C4 at t = 1 on concrete 1 × 1 data. -/
theorem C4_update_gradients_accumulates_witness :
    1 ≤ 1 ∧
    update_gradients g0 [[[1], [1]]] [[[5]], [[7]]] [[[1]], [[1]]] [[1]] [[1]] [[1]] [[1]] 1 =
      { dWy := matAdd g0.dWy (smul (1 / ((shape3 [[[1], [1]]]).2.2 : ℚ)) (matMul [[1]] (transposeM (List.getD [[[5]], [[7]]] 1 []))))
        dby := matAdd g0.dby (smul (1 / ((shape3 [[[1], [1]]]).2.2 : ℚ)) (sumRows [[1]]))
        dWh := matAdd g0.dWh (smul (1 / ((shape3 [[[1], [1]]]).2.2 : ℚ)) (matMul [[1]] (transposeM (sliceT [[[1], [1]]] 1))))
        dUh := matAdd g0.dUh (smul (1 / ((shape3 [[[1], [1]]]).2.2 : ℚ)) (matMul [[1]] (transposeM (hadamard (List.getD [[[1]], [[1]]] 1 []) (List.getD [[[5]], [[7]]] (1 - 1) [])))))
        dbh := matAdd g0.dbh (smul (1 / ((shape3 [[[1], [1]]]).2.2 : ℚ)) (sumRows [[1]]))
        dWr := matAdd g0.dWr (smul (1 / ((shape3 [[[1], [1]]]).2.2 : ℚ)) (matMul [[1]] (transposeM (sliceT [[[1], [1]]] 1))))
        dUr := matAdd g0.dUr (smul (1 / ((shape3 [[[1], [1]]]).2.2 : ℚ)) (matMul [[1]] (transposeM (List.getD [[[5]], [[7]]] (1 - 1) []))))
        dbr := matAdd g0.dbr (smul (1 / ((shape3 [[[1], [1]]]).2.2 : ℚ)) (sumRows [[1]]))
        dWz := matAdd g0.dWz (smul (1 / ((shape3 [[[1], [1]]]).2.2 : ℚ)) (matMul [[1]] (transposeM (sliceT [[[1], [1]]] 1))))
        dUz := matAdd g0.dUz (smul (1 / ((shape3 [[[1], [1]]]).2.2 : ℚ)) (matMul [[1]] (transposeM (List.getD [[[5]], [[7]]] (1 - 1) []))))
        dbz := matAdd g0.dbz (smul (1 / ((shape3 [[[1], [1]]]).2.2 : ℚ)) (sumRows [[1]])) } :=
  ⟨le_refl 1,
   C4_update_gradients_accumulates g0 [[[1], [1]]] [[[5]], [[7]]] [[[1]], [[1]]]
     [[1]] [[1]] [[1]] [[1]] 1 (le_refl 1)⟩

/-- Claim C4, counterexample at t = 0: with hidden-state cache
`[h_0, h_1] = [[[2]], [[3]]]`, `r_0 = [[1]]`, `dh = [[1]]` and batch size 1,
the call adds `1/m · dh · (r_0 ⊙ fc['h'][-1])ᵀ = [[3]]` into dUh, not the
`1/m · dh · (r_0 ⊙ h_(-1))ᵀ = [[0]]` that the claim's `h_(t-1)` (the zero
initial hidden state at t = 0) prescribes. -/
theorem C4_t0_counterexample :
    (update_gradients g0 [[[1], [1]]] [[[2]], [[3]]] [[[1]], [[1]]]
        [[0]] [[1]] [[0]] [[0]] 0).dUh = [[3]] ∧
    matAdd g0.dUh (smul 1 (matMul [[1]] (transposeM (hadamard [[1]] (zeros 1 1))))) = [[0]] ∧
    ([[(3 : ℚ)]] : Mat) ≠ [[0]] := by
  refine ⟨?_, ?_, by norm_num⟩ <;>
    norm_num [update_gradients, g0, pyIdx, shape3, sliceT, matAdd, smul, map2D,
      zipWith2D, hadamard, matMul, transposeM, column, dotQ, sumRows, zeros,
      List.replicate, List.range_succ, List.range_zero,
      List.head?, List.headD, Option.map, Option.getD, List.getD]

/-- Claim C3: `init_backward` caches the incoming gradient `dA` as `dX`, sets
`dh_next` to the zero tensor of the hidden-state shape, and computes the
initial hidden-state gradient of the last timestep as
`derivativeInput((Wyᵀ · dA + dh_next) ⊙ (1 − z_(T−1)), h_(T−1))` — the
(1 − z) gating is applied before the input-gate derivative. -/
theorem C3_init_backward_spec (p_Wy dA : Mat) (hSeq zSeq : List Mat)
    (f : Mat → Mat → Mat) (r c : ℕ)
    (hlen : 0 < hSeq.length) (hzh : zSeq.length = hSeq.length)
    (h0 : isMatrix r c (hSeq.getD 0 [])) :
    (init_backward p_Wy hSeq zSeq f dA).dX = dA ∧
    (init_backward p_Wy hSeq zSeq f dA).dhn = zeros r c ∧
    (init_backward p_Wy hSeq zSeq f dA).dXt = dA ∧
    (init_backward p_Wy hSeq zSeq f dA).dh =
      f (hadamard (matAdd (matMul (transposeM p_Wy) dA) (zeros r c))
          (oneMinus (zSeq.getD (hSeq.length - 1) [])))
        (hSeq.getD (hSeq.length - 1) []) := by
  have hz : zerosLike (hSeq.getD 0 []) = zeros r c := zerosLike_eq_zeros _ _ _ h0
  have hpz : pyIdx zSeq (-1) = zSeq.getD (zSeq.length - 1) [] := by
    simp [pyIdx]
  have hph : pyIdx hSeq (-1) = hSeq.getD (hSeq.length - 1) [] := by
    simp [pyIdx]
  refine ⟨rfl, ?_, rfl, ?_⟩
  · have hd : (init_backward p_Wy hSeq zSeq f dA).dhn = zerosLike (hSeq.getD 0 []) := rfl
    rw [hd, hz]
  · have hd : (init_backward p_Wy hSeq zSeq f dA).dh =
        f (hadamard (matAdd (matMul (transposeM p_Wy) dA) (zerosLike (hSeq.getD 0 [])))
            (oneMinus (pyIdx zSeq (-1)))) (pyIdx hSeq (-1)) := rfl
    rw [hd, hz, hpz, hph, hzh]

/-- Witness for claim C3 on a one-timestep cache with 1 × 1 tensors. -/
theorem C3_init_backward_spec_witness :
    0 < ([[[3]]] : List Mat).length ∧
    ([[[0]]] : List Mat).length = ([[[3]]] : List Mat).length ∧
    isMatrix 1 1 (([[[3]]] : List Mat).getD 0 []) ∧
    ((init_backward [[1]] [[[3]]] [[[0]]] (fun a _ => a) [[2]]).dX = [[2]] ∧
     (init_backward [[1]] [[[3]]] [[[0]]] (fun a _ => a) [[2]]).dhn = zeros 1 1 ∧
     (init_backward [[1]] [[[3]]] [[[0]]] (fun a _ => a) [[2]]).dXt = [[2]] ∧
     (init_backward [[1]] [[[3]]] [[[0]]] (fun a _ => a) [[2]]).dh =
       (fun a _ => a) (hadamard (matAdd (matMul (transposeM [[1]]) [[2]]) (zeros 1 1))
           (oneMinus (([[[0]]] : List Mat).getD (([[[3]]] : List Mat).length - 1) [])))
         (([[[3]]] : List Mat).getD (([[[3]]] : List Mat).length - 1) [])) :=
  ⟨by decide, by decide, by decide,
   C3_init_backward_spec [[1]] [[2]] [[[3]]] [[[0]]] (fun a _ => a) 1 1
     (by decide) (by decide) (by decide)⟩

/-- The constant `E_SAFE = 1e-16` of `commons/maths.py`. -/
noncomputable def E_SAFE : ℝ := 1e-16

/-- The combined norm computed by `clip_gradient`: the square root of the sum,
over all gradient tensors (each flattened to its entries), of
`sum((grad + E_SAFE) ** 2)`. -/
noncomputable def totalNorm (g : List (List ℝ)) : ℝ :=
  Real.sqrt ((g.map (fun grad => (grad.map (fun v => (v + E_SAFE) ^ 2)).sum)).sum)

/-- Embedding of `commons/maths.py: clip_gradient`: compute
`clip_coef = max_norm / (total_norm + E_SAFE)` and, only if `clip_coef < 1`,
multiply every gradient entry by it. -/
noncomputable def clip_gradient (g : List (List ℝ)) (max_norm : ℝ) : List (List ℝ) :=
  if max_norm / (totalNorm g + E_SAFE) < 1 then
    g.map (List.map (fun v => v * (max_norm / (totalNorm g + E_SAFE))))
  else g

lemma E_SAFE_pos : (0 : ℝ) < E_SAFE := by norm_num [E_SAFE]

/-- Claim C5, counterexample: a single gradient entry `1/4 - E_SAFE` has
computed combined norm exactly `1/4 = maxNorm`, so the norm is ≤ maxNorm,
yet `clip_gradient` still rescales it (the coefficient
`(1/4) / (1/4 + E_SAFE)` is strictly below 1), changing the gradient. -/
theorem C5_boundary_counterexample :
    totalNorm [[(1 / 4 : ℝ) - E_SAFE]] ≤ 1 / 4 ∧
    clip_gradient [[(1 / 4 : ℝ) - E_SAFE]] (1 / 4) ≠ [[(1 / 4 : ℝ) - E_SAFE]] := by
  have hN : totalNorm [[(1 / 4 : ℝ) - E_SAFE]] = 1 / 4 := by
    unfold totalNorm
    have h14 : ((1 / 4 : ℝ) - E_SAFE + E_SAFE) = 1 / 4 := by ring
    simp only [List.map_cons, List.map_nil, List.sum_cons, List.sum_nil, h14, add_zero]
    exact Real.sqrt_sq (by norm_num)
  have hE : (0 : ℝ) < E_SAFE := E_SAFE_pos
  have hcoef : (1 / 4 : ℝ) / (totalNorm [[(1 / 4 : ℝ) - E_SAFE]] + E_SAFE) < 1 := by
    rw [hN, div_lt_one (by linarith)]
    linarith
  refine ⟨le_of_eq hN, ?_⟩
  intro hcontra
  have hcoef2 : (1 / 4 : ℝ) / (1 / 4 + E_SAFE) < 1 := by
    have hc := hcoef
    rw [hN] at hc
    exact hc
  simp only [clip_gradient, hN, List.map_cons, List.map_nil, if_pos hcoef2] at hcontra
  norm_num [E_SAFE] at hcontra

/-- Claim C5 (amended): with `N` the computed pre-clip norm, gradients are
unchanged when `N + E_SAFE ≤ maxNorm`; whenever `maxNorm < N + E_SAFE` — in
particular whenever `N > maxNorm`, but also in the boundary sliver
`maxNorm - E_SAFE < N ≤ maxNorm` — every gradient entry is multiplied in
place by `coefficient = maxNorm / (N + E_SAFE)`, after which the rescaled
norm `coefficient · N` lies within `E_SAFE` below `maxNorm`. -/
theorem C5_clip_gradient_spec (g : List (List ℝ)) (max_norm : ℝ)
    (hmax : 0 < max_norm) :
    (totalNorm g + E_SAFE ≤ max_norm → clip_gradient g max_norm = g) ∧
    (max_norm < totalNorm g + E_SAFE →
      clip_gradient g max_norm =
        g.map (List.map (fun v => v * (max_norm / (totalNorm g + E_SAFE)))) ∧
      0 ≤ max_norm - max_norm / (totalNorm g + E_SAFE) * totalNorm g ∧
      max_norm - max_norm / (totalNorm g + E_SAFE) * totalNorm g < E_SAFE) ∧
    (max_norm < totalNorm g →
      clip_gradient g max_norm =
        g.map (List.map (fun v => v * (max_norm / (totalNorm g + E_SAFE))))) := by
  have hN : 0 ≤ totalNorm g := Real.sqrt_nonneg _
  have hE : (0 : ℝ) < E_SAFE := E_SAFE_pos
  have hNE : 0 < totalNorm g + E_SAFE := by linarith
  have hne : totalNorm g + E_SAFE ≠ 0 := ne_of_gt hNE
  refine ⟨?_, ?_, ?_⟩
  · intro hle
    have hcoef : ¬ (max_norm / (totalNorm g + E_SAFE) < 1) := by
      rw [not_lt, le_div_iff hNE]
      linarith
    simp [clip_gradient, hcoef]
  · intro hlt
    have hcoef : max_norm / (totalNorm g + E_SAFE) < 1 := by
      rw [div_lt_one hNE]
      exact hlt
    have heq : max_norm - max_norm / (totalNorm g + E_SAFE) * totalNorm g
        = max_norm * E_SAFE / (totalNorm g + E_SAFE) := by
      field_simp
      ring
    refine ⟨by simp [clip_gradient, hcoef], ?_, ?_⟩
    · rw [heq]
      positivity
    · rw [heq, div_lt_iff hNE]
      nlinarith
  · intro hgt
    have hcoef : max_norm / (totalNorm g + E_SAFE) < 1 := by
      rw [div_lt_one hNE]
      linarith
    simp [clip_gradient, hcoef]

/-- Witness for claim C5 on the single gradient `[[1]]` with maxNorm 1/4. -/
theorem C5_clip_gradient_spec_witness :
    (0 : ℝ) < 1 / 4 ∧
    ((totalNorm [[(1 : ℝ)]] + E_SAFE ≤ 1 / 4 → clip_gradient [[(1 : ℝ)]] (1 / 4) = [[(1 : ℝ)]]) ∧
     (1 / 4 < totalNorm [[(1 : ℝ)]] + E_SAFE →
       clip_gradient [[(1 : ℝ)]] (1 / 4) =
         [[(1 : ℝ)]].map (List.map (fun v => v * (1 / 4 / (totalNorm [[(1 : ℝ)]] + E_SAFE)))) ∧
       0 ≤ 1 / 4 - 1 / 4 / (totalNorm [[(1 : ℝ)]] + E_SAFE) * totalNorm [[(1 : ℝ)]] ∧
       1 / 4 - 1 / 4 / (totalNorm [[(1 : ℝ)]] + E_SAFE) * totalNorm [[(1 : ℝ)]] < E_SAFE) ∧
     (1 / 4 < totalNorm [[(1 : ℝ)]] →
       clip_gradient [[(1 : ℝ)]] (1 / 4) =
         [[(1 : ℝ)]].map (List.map (fun v => v * (1 / 4 / (totalNorm [[(1 : ℝ)]] + E_SAFE)))))) :=
  ⟨by norm_num, C5_clip_gradient_spec [[(1 : ℝ)]] (1 / 4) (by norm_num)⟩

/-- The per-row maximum (numpy `np.max(x, axis=1, keepdims=True)`). -/
noncomputable def rowMax : List ℝ → ℝ
  | [] => 0
  | [a] => a
  | a :: b :: rest => max a (rowMax (b :: rest))

/-- Embedding of one row of `commons/maths.py: softmax` with temperature `T`:
subtract the row maximum, DIVIDE BY `T`, exponentiate, normalize by the row
sum (the source computes `np.exp(x_safe / T)`). -/
noncomputable def softmaxRow (T : ℝ) (row : List ℝ) : List ℝ :=
  let x_exp := row.map (fun v => Real.exp ((v - rowMax row) / T))
  x_exp.map (fun e => e / x_exp.sum)

/-- Embedding of `commons/maths.py: softmax` forward over all rows. -/
noncomputable def softmax (T : ℝ) (x : List (List ℝ)) : List (List ℝ) :=
  x.map (softmaxRow T)

/-- The claim's wording of the softmax row: exponentiate the max-shifted row
FIRST and divide the exponentials by the temperature afterwards, then
normalize by the row sum.  Stated only to compare with `softmaxRow`. -/
noncomputable def softmaxRowClaimed (T : ℝ) (row : List ℝ) : List ℝ :=
  let x_exp := (row.map (fun v => Real.exp (v - rowMax row))).map (fun e => e / T)
  x_exp.map (fun e => e / x_exp.sum)

lemma sum_map_div (l : List ℝ) (s : ℝ) :
    (l.map (fun e => e / s)).sum = l.sum / s := by
  induction l with
  | nil => simp
  | cons a tl ih => simp [List.sum_cons, ih, add_div]

lemma sum_map_exp_pos (l : List ℝ) (hl : l ≠ []) (f : ℝ → ℝ) :
    0 < (l.map (fun v => Real.exp (f v))).sum := by
  induction l with
  | nil => exact absurd rfl hl
  | cons a tl ih =>
      cases tl with
      | nil => simpa using Real.exp_pos (f a)
      | cons b tb =>
          have hpos := ih (by simp)
          simp only [List.map_cons, List.sum_cons] at hpos ⊢
          have := Real.exp_pos (f a)
          linarith

/-- Claim C6 (amended): the softmax forward divides the max-shifted input by
the temperature before exponentiating — `exp((x - rowmax) / T)` — and then
normalizes by the row sum; consequently, for a positive temperature and
nonempty rows, every output row sums to 1. -/
theorem C6_softmax_rows_sum_one (T : ℝ) (x : List (List ℝ)) (hT : 0 < T)
    (hx : ∀ row ∈ x, row ≠ []) :
    ∀ row ∈ softmax T x, row.sum = 1 := by
  intro row hrow
  rcases List.mem_map.mp hrow with ⟨r0, hr0, rfl⟩
  have hne : r0 ≠ [] := hx r0 hr0
  show (softmaxRow T r0).sum = 1
  unfold softmaxRow
  rw [sum_map_div]
  exact div_self (ne_of_gt (sum_map_exp_pos r0 hne (fun v => (v - rowMax r0) / T)))

/-- Witness for claim C6 at temperature 1 on the single row `[0]`. -/
theorem C6_softmax_rows_sum_one_witness :
    (0 : ℝ) < 1 ∧ (∀ row ∈ ([[(0 : ℝ)]] : List (List ℝ)), row ≠ []) ∧
    ∀ row ∈ softmax 1 [[(0 : ℝ)]], row.sum = 1 :=
  ⟨by norm_num, by simp, C6_softmax_rows_sum_one 1 [[(0 : ℝ)]] (by norm_num) (by simp)⟩

/-- Claim C6, counterexample: on the row `[0, 1]` at temperature 2 the code's
`exp((x - max) / T)` disagrees with the claimed "exponentiate, then divide
the exponentials by T": the claimed pipeline cancels the temperature and
returns plain softmax, while the code genuinely rescales the exponents. -/
theorem C6_temperature_order_counterexample :
    softmaxRow 2 [(0 : ℝ), 1] ≠ softmaxRowClaimed 2 [(0 : ℝ), 1] := by
  have hM : rowMax [(0 : ℝ), 1] = 1 := by
    show max (0 : ℝ) (rowMax [1]) = 1
    show max (0 : ℝ) 1 = 1
    exact max_eq_right (by norm_num)
  have e1 : (softmaxRow 2 [(0 : ℝ), 1]).get? 1
      = some (Real.exp ((1 - rowMax [(0 : ℝ), 1]) / 2) /
          (Real.exp ((0 - rowMax [(0 : ℝ), 1]) / 2) +
            (Real.exp ((1 - rowMax [(0 : ℝ), 1]) / 2) + 0))) := rfl
  have e2 : (softmaxRowClaimed 2 [(0 : ℝ), 1]).get? 1
      = some (Real.exp (1 - rowMax [(0 : ℝ), 1]) / 2 /
          (Real.exp (0 - rowMax [(0 : ℝ), 1]) / 2 +
            (Real.exp (1 - rowMax [(0 : ℝ), 1]) / 2 + 0))) := rfl
  rw [hM] at e1 e2
  intro hcontra
  rw [hcontra, e2] at e1
  have e3 : Real.exp ((1 - (1 : ℝ)) / 2) /
        (Real.exp ((0 - (1 : ℝ)) / 2) + (Real.exp ((1 - (1 : ℝ)) / 2) + 0))
      = Real.exp (1 - (1 : ℝ)) / 2 /
        (Real.exp (0 - (1 : ℝ)) / 2 + (Real.exp (1 - (1 : ℝ)) / 2 + 0)) :=
    Option.some_inj.mp e1.symm
  have hlt : Real.exp (-1 : ℝ) < Real.exp (-(1 / 2) : ℝ) :=
    Real.exp_lt_exp.mpr (by norm_num)
  rw [show ((1 : ℝ) - 1) / 2 = 0 by norm_num, show ((0 : ℝ) - 1) / 2 = -(1 / 2) by norm_num,
    show ((1 : ℝ) - 1) = 0 by norm_num, show ((0 : ℝ) - 1) = -1 by norm_num,
    Real.exp_zero] at e3
  rw [div_eq_div_iff (by positivity) (by positivity)] at e3
  nlinarith [hlt, Real.exp_pos (-1 : ℝ), Real.exp_pos (-(1 / 2) : ℝ)]

/-- Embedding of `commons/maths.py: sigmoid` on one entry: the `linear` flag
applies the numerically split forward formula, then the `deriv` flag maps the
(possibly re-activated) value `y` to `y * (1 - y)`. -/
noncomputable def sigmoid (x : ℝ) (linear deriv : Bool) : ℝ :=
  let x1 := if linear then
      (if 0 ≤ x then 1 / (1 + Real.exp (-x)) else Real.exp x / (1 + Real.exp x))
    else x
  if deriv then x1 * (1 - x1) else x1

/-- Claim C7 (amended): calling sigmoid on the already-activated value with
`linear := false` and `deriv := true` returns `y * (1 - y)` of the forward
output, elementwise; with the default `linear := true` the forward formula is
re-applied first and the identity fails (see the counterexample). -/
theorem C7_sigmoid_derivative_of_activated (x : ℝ) :
    sigmoid (sigmoid x true false) false true
      = sigmoid x true false * (1 - sigmoid x true false) := rfl

/-- Claim C7, counterexample: with the source's default `linear = True`, the
derivative call re-applies the forward sigmoid to its argument, so at `x = 0`
it returns `s(1/2) * (1 - s(1/2)) ≠ 1/4 = s(0) * (1 - s(0))`. -/
theorem C7_default_linear_counterexample :
    sigmoid (sigmoid 0 true false) true true
      ≠ sigmoid 0 true false * (1 - sigmoid 0 true false) := by
  have h0 : sigmoid 0 true false = 1 / 2 := by
    unfold sigmoid
    norm_num [Real.exp_zero]
  rw [h0]
  have hs : sigmoid (1 / 2) true true
      = 1 / (1 + Real.exp (-(1 / 2))) * (1 - 1 / (1 + Real.exp (-(1 / 2)))) := by
    unfold sigmoid
    norm_num
  rw [hs]
  have h1 : Real.exp (-(1 / 2) : ℝ) < 1 := by
    have := Real.exp_lt_exp.mpr (show (-(1 / 2) : ℝ) < 0 by norm_num)
    simpa [Real.exp_zero] using this
  have h2 : (0 : ℝ) < 1 + Real.exp (-(1 / 2) : ℝ) := by positivity
  have hne : (1 : ℝ) / (1 + Real.exp (-(1 / 2))) ≠ 1 / 2 := by
    intro hcl
    rw [div_eq_div_iff (ne_of_gt h2) (by norm_num : (2 : ℝ) ≠ 0)] at hcl
    nlinarith [Real.exp_pos (-(1 / 2) : ℝ)]
  intro hcontra
  apply hne
  have hsq : ((1 : ℝ) / (1 + Real.exp (-(1 / 2))) - 1 / 2) ^ 2 = 0 := by nlinarith
  have := sq_eq_zero_iff.mp hsq
  linarith

/-- Embedding of `commons/maths.py: lrelu`: the leaky slope is read from the
hyperparameter context BEFORE any branch, so a missing `LRELU_alpha` key
fails the call regardless of the `deriv` flag. -/
noncomputable def lrelu (hPars : List (String × ℝ)) (x : ℝ) (deriv : Bool) : Option ℝ :=
  match hPars.lookup "LRELU_alpha" with
  | none => none
  | some a => some (if deriv then (if 0 < x then 1 else a) else max (a * x) x)

/-- Embedding of `commons/maths.py: elu`: the alpha is read from the
hyperparameter context before branching; the derivative branch re-computes
the forward value on the same input (`elu(x) + a` where `x ≤ 0`). -/
noncomputable def elu (hPars : List (String × ℝ)) (x : ℝ) (deriv : Bool) : Option ℝ :=
  match hPars.lookup "ELU_alpha" with
  | none => none
  | some a =>
      some (if deriv then
          (if 0 < x then 1 else (if 0 < x then x else a * (Real.exp x - 1)) + a)
        else (if 0 < x then x else a * (Real.exp x - 1)))

/-- Embedding of the softmax call reading its temperature from the
hyperparameter context (`layer_hPars['softmax_temperature']`). -/
noncomputable def softmax_with_context (hPars : List (String × ℝ))
    (x : List (List ℝ)) : Option (List (List ℝ)) :=
  match hPars.lookup "softmax_temperature" with
  | none => none
  | some T => some (softmax T x)

/-- Claim C8: an activation that needs a context key fails exactly when that
key is absent from the supplied context — lrelu with `LRELU_alpha`, elu with
`ELU_alpha`, softmax with `softmax_temperature` — and succeeds (returns a
value, no default substituted) whenever the key is present. -/
theorem C8_missing_context_key_fails (hPars : List (String × ℝ)) (x : ℝ)
    (d : Bool) (xs : List (List ℝ)) :
    (lrelu hPars x d).isSome = (hPars.lookup "LRELU_alpha").isSome ∧
    (elu hPars x d).isSome = (hPars.lookup "ELU_alpha").isSome ∧
    (softmax_with_context hPars xs).isSome = (hPars.lookup "softmax_temperature").isSome := by
  refine ⟨?_, ?_, ?_⟩
  · cases h : hPars.lookup "LRELU_alpha" <;> simp [lrelu, h]
  · cases h : hPars.lookup "ELU_alpha" <;> simp [elu, h]
  · cases h : hPars.lookup "softmax_temperature" <;> simp [softmax_with_context, h]

/-- Embedding of `commons/maths.py: xavier`: draw from the injected random
source at the requested shape, then scale every entry by
`sqrt(2 / sum(shape))`. -/
noncomputable def xavier (shape : ℕ × ℕ) (rng : ℕ × ℕ → List (List ℝ)) :
    List (List ℝ) :=
  (rng shape).map (List.map (fun w => w * Real.sqrt (2 / ((shape.1 : ℝ) + (shape.2 : ℝ)))))

/-- `A` is an `r × c` real matrix. -/
def isMatrixR (r c : ℕ) (A : List (List ℝ)) : Prop :=
  A.length = r ∧ ∀ row ∈ A, row.length = c

/-- Claim C9: for a 2-D target shape and an injectable random source that
produces a draw of that shape, xavier returns the draw scaled entrywise by
`sqrt(2 / (rows + cols))`, and the result has the requested shape. -/
theorem C9_xavier_spec (r c : ℕ) (rng : ℕ × ℕ → List (List ℝ))
    (hd : isMatrixR r c (rng (r, c))) :
    xavier (r, c) rng =
      (rng (r, c)).map (List.map (fun w => w * Real.sqrt (2 / ((r : ℝ) + (c : ℝ))))) ∧
    isMatrixR r c (xavier (r, c) rng) := by
  obtain ⟨h1, h2⟩ := hd
  refine ⟨rfl, ?_, ?_⟩
  · simpa [xavier] using h1
  · intro row hrow
    simp only [xavier, List.mem_map] at hrow
    rcases hrow with ⟨r0, hr0, rfl⟩
    simp [h2 r0 hr0]

/-- A concrete injectable random source producing a fixed 2 × 3 draw. -/
def xavierTestDraw : ℕ × ℕ → List (List ℝ) := fun _ => [[0, 0, 0], [0, 0, 0]]

/-- Witness for claim C9 at the 2 × 3 shape. -/
theorem C9_xavier_spec_witness :
    isMatrixR 2 3 (xavierTestDraw (2, 3)) ∧
    (xavier (2, 3) xavierTestDraw =
      (xavierTestDraw (2, 3)).map
        (List.map (fun w => w * Real.sqrt (2 / (((2 : ℕ) : ℝ) + ((3 : ℕ) : ℝ))))) ∧
     isMatrixR 2 3 (xavier (2, 3) xavierTestDraw)) :=
  ⟨by simp [isMatrixR, xavierTestDraw],
   C9_xavier_spec 2 3 xavierTestDraw (by simp [isMatrixR, xavierTestDraw])⟩

end EpyNN
